import Mathlib

/-!
Verification development for the tinyblend blender-file loader
(src/tinyblend.py). The Python source is shallowly embedded: each
definition below mirrors one function or code path of the source, with
Python byte strings modelled as lists of naturals, Python exceptions as
an explicit error type inside Except, and the weak-reference / handle
lifecycle as explicit state records. Floating point payloads are
abstracted to integer field values; none of the statements below depend
on float arithmetic.
-/

/-- Python exception kinds raised by tinyblend, one constructor per
distinct Python exception class used by the source. -/
inductive BlendError
  | importFailure (msg : String)    -- BlenderFileImportException
  | readFailure (msg : String)      -- BlenderFileReadException
  | runtimeError (msg : String)     -- RuntimeError (released parent file)
  | keyError (msg : String)         -- KeyError (lookup miss)
  | attributeError (msg : String)   -- AttributeError
  | valueError (msg : String)       -- ValueError (bytes.index miss, closed handle)
deriving DecidableEq, Repr

/-- Architecture marker parsed from header byte 7 (tinyblend.py line 57). -/
inductive BlendFileArch
  | X32
  | X64
deriving DecidableEq, Repr

/-- Endianness marker parsed from header byte 8 (tinyblend.py line 58). -/
inductive BlendFileEndian
  | Little
  | Big
deriving DecidableEq, Repr

/-- Version triple, components are byte minus 48 and may be negative
because the source never validates the digit bytes (line 518). -/
structure BlendVersionInfo where
  major : Int
  minor : Int
  rev : Int
deriving DecidableEq, Repr

/-- Parsed 12-byte header (tinyblend.py line 62). -/
structure BlendFileHeader where
  version : BlendVersionInfo
  arch : BlendFileArch
  endian : BlendFileEndian
deriving DecidableEq, Repr

/-- The seven literal tag bytes, b ascii of BLENDER (line 513). -/
def blenderTag : List Nat := [66, 76, 69, 78, 68, 69, 82]

/-- Byte 7 dispatch of BlenderFile._parse_header (lines 520-525):
45 is the minus sign meaning X64, 95 is the underscore meaning X32. -/
def archOfByte (b : Nat) : Option BlendFileArch :=
  if b = 45 then some BlendFileArch.X64
  else if b = 95 then some BlendFileArch.X32
  else none

/-- Byte 8 dispatch of BlenderFile._parse_header (lines 527-532):
118 is lowercase v meaning little endian, 86 is uppercase V meaning big. -/
def endianOfByte (b : Nat) : Option BlendFileEndian :=
  if b = 118 then some BlendFileEndian.Little
  else if b = 86 then some BlendFileEndian.Big
  else none

/-- BlenderFile._parse_header (tinyblend.py lines 503-536). The version
bytes 9..11 are mapped through byte minus 48 with no digit check. -/
def parseHeader (h : List Nat) : Option BlendFileHeader :=
  if h.length = 12 ∧ h.take 7 = blenderTag then
    match archOfByte (h.getD 7 0), endianOfByte (h.getD 8 0) with
    | some a, some e =>
        some { version := { major := (h.getD 9 0 : Int) - 48,
                            minor := (h.getD 10 0 : Int) - 48,
                            rev := (h.getD 11 0 : Int) - 48 },
               arch := a, endian := e }
    | _, _ => none
  else none

/-- BlenderFile.__init__ header step (lines 490-494): a None result from
_parse_header raises BlenderFileImportException with this message. -/
def openHeader (h : List Nat) : Except BlendError BlendFileHeader :=
  match parseHeader h with
  | none => Except.error (BlendError.importFailure "Bad file header")
  | some hd => Except.ok hd

/-- Concrete 12-byte input whose version bytes are spaces (32), not
ASCII digits: BLENDER, minus, v, then three spaces. -/
def nonDigitHeader : List Nat := [66, 76, 69, 78, 68, 69, 82, 45, 118, 32, 32, 32]

/-- A fully valid header: BLENDER, minus, v, then the digits 277. -/
def goodHeader : List Nat := [66, 76, 69, 78, 68, 69, 82, 45, 118, 50, 55, 55]

/-- A header whose first tag byte is wrong. -/
def badTagHeader : List Nat := [88, 76, 69, 78, 68, 69, 82, 45, 118, 50, 55, 55]

/-- One decoded slot value of the binary format: a numeric scalar, a
pointer address, or a fixed-length char-array byte string. -/
inductive SVal
  | int (n : Int)
  | addr (n : Nat)
  | bytes (bs : List Nat)
deriving DecidableEq, BEq, Repr

/-- One decoded attribute value of a record: a single slot value, or the
tuple that _set_fields builds from a grouped array of slots. -/
inductive Val
  | s (v : SVal)
  | tup (vs : List SVal)
deriving DecidableEq, BEq, Repr

/-- A decoded record as BlenderObject.__eq__ observes it: the dynamic
type tag, and the grouped attribute values in FMT-name order. The
name-template grouping in __eq__ (lines 224-236) makes exactly one
comparison per grouped field, in declaration order, which is what the
value list indexes. -/
structure BRecord where
  typeTag : String
  fields : List Val
deriving DecidableEq, Repr

/-- BlenderObject.__eq__ (tinyblend.py lines 219-237): a type identity
test, then eq starts False and each per-field comparison is folded in
with a bitwise or-assignment. -/
def blenderObjectEq (a b : BRecord) : Bool :=
  if a.typeTag ≠ b.typeTag then false
  else (a.fields.zip b.fields).foldl (fun acc p => acc || (p.1 == p.2)) false

/-- Modelled from the spec: equality as the conjunction over all fields
together with the structure type test, used only to compare against the
source definition blenderObjectEq. -/
def specRecordEq (a b : BRecord) : Bool :=
  a.typeTag == b.typeTag && a.fields == b.fields

/-- Two records of one type agreeing on the first field and differing on
the second. -/
def recAgree : BRecord :=
  { typeTag := "World", fields := [Val.s (SVal.int 1), Val.s (SVal.int 2)] }

/-- Same type as recAgree, same first field, different second field. -/
def recDiffer : BRecord :=
  { typeTag := "World", fields := [Val.s (SVal.int 1), Val.s (SVal.int 3)] }

/-- A record of a structure type with no decoded scalar fields. -/
def recEmpty : BRecord := { typeTag := "Shell", fields := [] }

/-- One block header as recorded by the block scanner (tinyblend.py
line 65): tag, payload size, original address, sdna structure index,
element count. The payload offset is paired beside it in block tables. -/
structure BlendBlockHeader where
  code : String
  size : Nat
  addr : Nat
  sdna : Nat
  count : Nat
deriving DecidableEq, Repr

/-- Error text of BlenderFile._from_address (line 759), naming the
unresolved address in hexadecimal like the Python hex builtin. -/
def addrErrMsg (ptr : Nat) : String :=
  "Cannot find the address 0x" ++ (Nat.toDigits 16 ptr).asString ++ " in the blend file"

/-- The scan loop of BlenderFile._from_address (lines 753-756): every
matching block overwrites the previous candidate, there is no break, so
the accumulator ends at the final match. -/
def findBlockAt (blocks : List (BlendBlockHeader × Nat)) (ptr : Nat) :
    Option (BlendBlockHeader × Nat) :=
  blocks.foldl (fun acc bo => if bo.1.addr == ptr then some bo else acc) none

/-- BlenderFile._from_address (lines 746-769) at block-selection level:
the selected block and offset determine the decoded record, because the
decode of a block is a pure function of its bytes and sdna index. -/
def fromAddress (blocks : List (BlendBlockHeader × Nat)) (ptr : Nat) :
    Except BlendError (BlendBlockHeader × Nat) :=
  match findBlockAt blocks ptr with
  | none => Except.error (BlendError.readFailure (addrErrMsg ptr))
  | some bo => Except.ok bo

/-- BlenderFile._from_addresses (line 771-772): zero entries become the
absent value, nonzero entries resolve, a failure propagates. -/
def fromAddresses (blocks : List (BlendBlockHeader × Nat)) (ptrs : List Nat) :
    Except BlendError (List (Option (BlendBlockHeader × Nat))) :=
  ptrs.mapM (fun p => if p = 0 then pure none else (fromAddress blocks p).map some)

/-- Two distinct blocks recorded at the same address 5. -/
def dupBlockA : BlendBlockHeader := { code := "DAT1", size := 16, addr := 5, sdna := 1, count := 1 }

/-- Second block at the same address, different sdna and payload. -/
def dupBlockB : BlendBlockHeader := { code := "DAT2", size := 32, addr := 5, sdna := 2, count := 1 }

/-- Observable state of one open BlenderFile together with the liveness
of the weak references held by its factories and records. refAlive
models whether the weakref from BlenderObjectFactory._file_ref (line
292) still resolves, which in Python depends on garbage collection of
the BlenderFile object, not on close. handleOpen models the underlying
OS file handle that BlenderFile.close (lines 841-842) closes. -/
structure FileState where
  refAlive : Bool
  handleOpen : Bool
  blocks : List (BlendBlockHeader × Nat)
deriving DecidableEq, Repr

/-- BlenderFile.close (lines 841-842): it only calls handle.close; the
BlenderFile object, its block table and all weak references to it are
untouched. -/
def closeFile (st : FileState) : FileState := { st with handleOpen := false }

/-- BlenderObjectFactory.file property (lines 450-456): dereference the
weakref and raise RuntimeError only when the referent was freed. -/
def factoryFile (st : FileState) : Except BlendError FileState :=
  if st.refAlive then Except.ok st
  else Except.error (BlendError.runtimeError "Parent blend file was freed")

/-- A read on the underlying handle, as _read_block performs (lines
735-744); CPython raises ValueError on a closed file object. -/
def handleRead (st : FileState) : Except BlendError Unit :=
  if st.handleOpen then Except.ok ()
  else Except.error (BlendError.valueError "I/O operation on closed file")

/-- BlenderObjectFactory.__len__ (lines 309-317): resolve the weakref,
then count the in-memory block headers whose sdna index matches. The
file handle is never touched. -/
def factoryLen (st : FileState) (sdnaIndex : Nat) : Except BlendError Nat :=
  (factoryFile st).map
    (fun f => (f.blocks.filter (fun bo => bo.1.sdna == sdnaIndex)).length)

/-- First step of BlenderObjectFactory.__iter__ (lines 325-333): resolve
the weakref, then _read_block the first matching block from the handle. -/
def factoryIterFirstRead (st : FileState) (sdnaIndex : Nat) : Except BlendError Unit :=
  match factoryFile st with
  | Except.error e => Except.error e
  | Except.ok f =>
    match f.blocks.find? (fun bo => bo.1.sdna == sdnaIndex) with
    | some _ => handleRead f
    | none => Except.ok ()

/-- An open file with one block of sdna index 3, weakly referenced by a
factory, before close is called. -/
def liveFile : FileState :=
  { refAlive := true, handleOpen := true,
    blocks := [({ code := "DATA", size := 64, addr := 9, sdna := 3, count := 1 }, 100)] }

/-- The stored value of a pointer field on a record instance: the ptr_
attribute holds either one address or the tuple of a pointer array. -/
inductive PtrVal
  | addr (n : Nat)
  | addrList (ns : List Nat)
deriving DecidableEq, Repr

/-- What a pointer resolution produced: one block (decoding to one
record or an in-block sequence), or the list produced for a pointer
array, with none for its zero entries. -/
inductive ResolveResult
  | one (bo : BlendBlockHeader × Nat)
  | many (bos : List (Option (BlendBlockHeader × Nat)))
deriving DecidableEq, Repr

/-- AddressLookup.__get__ (tinyblend.py lines 161-168). The first
component is the descriptor state self.value after the call: it is a
slot on the descriptor object itself, shared by every instance of the
record class, initialized to none (line 156), overwritten on each
successful nonzero resolution, and returned untouched when the stored
pointer is zero. The second component is the returned value or the
propagated exception. -/
def addressLookupGet (blocks : List (BlendBlockHeader × Nat))
    (st : Option ResolveResult) (ptr : PtrVal) :
    Option ResolveResult × Except BlendError (Option ResolveResult) :=
  match ptr with
  | PtrVal.addr n =>
      if n ≠ 0 then
        match fromAddress blocks n with
        | Except.ok bo => (some (ResolveResult.one bo), Except.ok (some (ResolveResult.one bo)))
        | Except.error e => (st, Except.error e)
      else (st, Except.ok st)
  | PtrVal.addrList ns =>
      match fromAddresses blocks ns with
      | Except.ok xs => (some (ResolveResult.many xs), Except.ok (some (ResolveResult.many xs)))
      | Except.error e => (st, Except.error e)

/-- AddressLookup.__set__ (lines 158-159): unconditionally raises and
mutates neither the record fields nor the descriptor state. -/
def addressLookupSet (recFields : List Val) (st : Option ResolveResult) (v : Val) :
    Except BlendError Unit × (List Val × Option ResolveResult) :=
  (Except.error (BlendError.attributeError "Attribute cannot be setted"), (recFields, st))

/-- AddressLookup.__delete__ (lines 170-171): unconditionally raises and
mutates neither the record fields nor the descriptor state. -/
def addressLookupDel (recFields : List Val) (st : Option ResolveResult) :
    Except BlendError Unit × (List Val × Option ResolveResult) :=
  (Except.error (BlendError.attributeError "Attribute cannot be deleted"), (recFields, st))

/-- A single block recorded at address 5 for the stale-cache scenario. -/
def worldBlock : BlendBlockHeader := { code := "DATA", size := 64, addr := 5, sdna := 2, count := 1 }

/-- Decimal digit characters in order. -/
def decDigits : List Char := ['0', '1', '2', '3', '4', '5', '6', '7', '8', '9']

/-- The character of one decimal digit. -/
def digitCh (d : Nat) : Char := decDigits.getD d '0'

/-- Fuel-driven decimal rendering of a natural number, matching the
Python str builtin used by format in compile_fmt (line 360). -/
def natDigitsGo : Nat → Nat → List Char
  | 0, _ => []
  | fuel + 1, n =>
      if n < 10 then [digitCh n]
      else natDigitsGo fuel (n / 10) ++ [digitCh (n % 10)]

/-- Decimal character rendering of a natural number. -/
def decimalChars (n : Nat) : List Char := natDigitsGo (n + 1) n

/-- Numeric value of a decimal digit string, matching the Python int
builtin applied to regex captures (line 593). -/
def digitsToNat (cs : List Char) : Nat :=
  cs.foldl (fun a c => 10 * a + (c.toNat - 48)) 0

/-- State machine equivalent, on field names, of re.findall applied with
the bracket template of _export_struct (line 576): emit the value of
every maximal digit run enclosed in square brackets. The state carries
the accumulated value and whether a digit was seen since the opening
bracket. -/
def scanBracketsGo : List Char → Option (Nat × Bool) → List Nat
  | [], _ => []
  | c :: rest, none =>
      if c = '[' then scanBracketsGo rest (some (0, false))
      else scanBracketsGo rest none
  | c :: rest, some (n, has) =>
      if c.isDigit then scanBracketsGo rest (some (10 * n + (c.toNat - 48), true))
      else if c = ']' then
        if has then n :: scanBracketsGo rest none
        else scanBracketsGo rest none
      else if c = '[' then scanBracketsGo rest (some (0, false))
      else scanBracketsGo rest none

/-- All bracketed dimensions of a raw field name, in order. -/
def scanBrackets (cs : List Char) : List Nat := scanBracketsGo cs none

/-- Product of a dimension list, with the empty product 1, matching the
count accumulation of _export_struct (lines 591-593). -/
def natProd (l : List Nat) : Nat := l.foldl (fun a b => a * b) 1

/-- Python str.lstrip with the star character (line 587). -/
def stripLeadingStars : List Char → List Char
  | '*' :: rest => stripLeadingStars rest
  | cs => cs

/-- One resolved field as BlendStructField (tinyblend.py line 68):
stripped name, declared type name, stored byte size, pointer flag and
array arity. -/
structure BlendStructField where
  name : List Char
  type : String
  size : Nat
  ptr : Bool
  count : Nat
deriving DecidableEq, Repr

/-- The per-field body of BlenderFile._export_struct (lines 578-599).
ptrSize is 8 on X64 headers and 4 on X32 (line 571). The name slice up
to the first opening bracket is modelled with takeWhile; the source
raises ValueError when a name ends with a closing bracket but contains
no opening one, a shape that never occurs in blend schemas and is out of
scope here. -/
def exportField (ptrSize : Nat) (rawName : List Char) (typeName : String)
    (typeSize : Nat) : BlendStructField :=
  let isPtr : Bool := rawName.head? == some '*'
  let isArr : Bool := rawName.getLast? == some ']'
  let name1 := if isPtr then stripLeadingStars rawName else rawName
  let size1 := if isPtr then ptrSize else typeSize
  if isArr then
    let count := natProd (scanBrackets name1)
    { name := name1.takeWhile (fun c => c != '['), type := typeName,
      size := size1 * count, ptr := isPtr, count := count }
  else
    { name := name1, type := typeName, size := size1, ptr := isPtr, count := 1 }

/-- compile_fmt fix_name (lines 348-352): a name starting with an
underscore gains a leading f so it is a legal namedtuple field. -/
def fixName (n : List Char) : List Char :=
  if n.head? = some '_' then 'f' :: n else n

/-- The per-element name base_i_count built by compile_fmt (line 360). -/
def arrayElemName (base : List Char) (i count : Nat) : List Char :=
  base ++ '_' :: decimalChars i ++ '_' :: decimalChars count

/-- The decode-plan names generated for one field by compile_fmt (lines
354-362): per-element flat names for a non-char array, otherwise the
single fixed name. -/
def elemNames (f : BlendStructField) : List (List Char) :=
  if 1 < f.count ∧ f.type ≠ "char" then
    (List.range f.count).map (fun i => fixName (arrayElemName f.name i f.count))
  else [fixName f.name]

/-- The _BASE_TYPES table (lines 54-55) as an association list. -/
def baseTypesL : List (String × Char) :=
  [("float", 'f'), ("double", 'd'), ("int", 'i'), ("short", 'h'), ("ushort", 'H'),
   ("char", 'c'), ("long", 'l'), ("ulong", 'L'), ("uint64_t", 'Q'), ("int64_t", 'q')]

/-- One unit of the compiled format string: count pointer slots, count
primitive slots of one struct char, one fixed-length byte string, or a
padding run for an embedded structure. -/
inductive FmtItem
  | ptr (n : Nat)
  | prim (n : Nat) (code : Char)
  | str (n : Nat)
  | pad (n : Nat)
deriving DecidableEq, Repr

/-- The ptr_ marker prepended to pointer decode names (line 366). -/
def ptrTag : List Char := ['p', 't', 'r', '_']

/-- The per-field body of BlenderObjectFactory.compile_fmt (lines
354-383): pointers first, then base types with the char-array special
case, and a padding run for embedded structures. -/
def compileField (f : BlendStructField) : List FmtItem × List (List Char) :=
  if f.ptr then
    ([FmtItem.ptr f.count], (elemNames f).map (fun n => ptrTag ++ n))
  else
    match baseTypesL.lookup f.type with
    | some code =>
        if f.type = "char" ∧ 1 < f.count then ([FmtItem.str f.count], elemNames f)
        else ([FmtItem.prim f.count code], elemNames f)
    | none => ([FmtItem.pad f.size], [])

/-- BlenderObjectFactory.compile_fmt over a whole field list, appending
format units and decode names in declaration order. -/
def compileFmt (fields : List BlendStructField) : List FmtItem × List (List Char) :=
  fields.foldl
    (fun acc f => (acc.1 ++ (compileField f).1, acc.2 ++ (compileField f).2)) ([], [])

/-- Matching of one decode name against the grouping template of
_set_fields and __eq__ (line 246), the regex capturing a base, an index
digit run and a length digit run separated by underscores. The template
is parsed from the right so the captured length is the final digit run,
as the greedy regex produces on every name compile_fmt emits. -/
def splitArraySuffix (n : List Char) : Option (List Char × Nat) :=
  let rev := n.reverse
  let d2 := rev.takeWhile Char.isDigit
  let rest := rev.dropWhile Char.isDigit
  if d2.isEmpty then none
  else
    match rest with
    | '_' :: rest1 =>
        let d1 := rest1.takeWhile Char.isDigit
        let rest2 := rest1.dropWhile Char.isDigit
        if d1.isEmpty then none
        else
          match rest2 with
          | '_' :: baseRev =>
              if baseRev.isEmpty then none
              else some (baseRev.reverse, digitsToNat d2.reverse)
          | _ => none
    | _ => none

/-- The driver loop of BlenderObject._set_fields (lines 239-259) over
the zipped name and value stream. The second argument is the collection
state while an array group is being gathered: base name, slots still
missing, and the values gathered so far in reverse. Exhausting the
stream mid-group mirrors the StopIteration that __new__ swallows, the
partially gathered field is never set. -/
def setFieldsGo : List (List Char × SVal) → Option (List Char × Nat × List SVal) →
    List (List Char × Val)
  | [], _ => []
  | (n, v) :: rest, none =>
      match splitArraySuffix n with
      | none => (n, Val.s v) :: setFieldsGo rest none
      | some (base, len) =>
          if len ≤ 1 then (base, Val.tup [v]) :: setFieldsGo rest none
          else setFieldsGo rest (some (base, len - 1, [v]))
  | (_, v) :: rest, some (base, k, acc) =>
      if k ≤ 1 then (base, Val.tup (acc.reverse ++ [v])) :: setFieldsGo rest none
      else setFieldsGo rest (some (base, k - 1, v :: acc))

/-- BlenderObject._set_fields: pair the decode names with the unpacked
values and build the attribute list, grouping array elements into one
tuple attribute under the template base name. -/
def setFields (ns : List (List Char)) (vs : List SVal) : List (List Char × Val) :=
  setFieldsGo (ns.zip vs) none

/-- Characters of a string literal, for concrete raw field names. -/
def strChars (s : String) : List Char := s.toList

/-- One raw schema field declaration (tinyblend.py line 66): indexes
into the type-name and field-name tables. -/
structure BlendStructFieldDNA where
  index_type : Nat
  index_name : Nat
deriving DecidableEq, Repr

/-- One raw structure declaration (line 67): defining type index and the
ordered field declarations. -/
structure BlendStructDNA where
  index : Nat
  fields : List BlendStructFieldDNA
deriving DecidableEq, Repr

/-- The data BlenderObjectFactory.__init__ (lines 291-307) derives from
the schema: position of the structure in the table, the declaration
itself, the has-identity flag, and the structure name. -/
structure FactoryModel where
  sdnaIndex : Nat
  structDna : BlendStructDNA
  hasName : Bool
  objectName : String
deriving DecidableEq, Repr

/-- The enumerate loop of __init__ (lines 294-298): first structure
whose defining index equals the requested type index, with its position. -/
def findStructDna (structures : List BlendStructDNA) (tni : Nat) :
    Option (Nat × BlendStructDNA) :=
  structures.enum.find? (fun p => p.2.index == tni)

/-- BlenderObjectFactory.__init__ given a type-name index: none models
the uncaught AttributeError when no structure declaration matches and
self.struct_dna is never assigned. The has-name flag scans the declared
field types for the ID type (line 304). -/
def buildFactory (typeNames : List String) (structures : List BlendStructDNA)
    (tni : Nat) : Option FactoryModel :=
  match findStructDna structures tni with
  | none => none
  | some (i, dna) =>
      some { sdnaIndex := i, structDna := dna,
             hasName := (dna.fields.map (fun fd => typeNames.getD fd.index_type "")).contains "ID",
             objectName := typeNames.getD dna.index "" }

/-- The construction path of BlenderFile.list (lines 792-799): resolve
the structure name in the type-name table, a miss raising the
ReadFailure, then construct the factory. -/
def buildFromName (typeNames : List String) (structures : List BlendStructDNA)
    (nm : String) : Except BlendError FactoryModel :=
  match typeNames.findIdx? (fun t => t == nm) with
  | none => Except.error (BlendError.readFailure
      ("Data type " ++ nm ++ " could not be found in the blend file"))
  | some tni =>
      match buildFactory typeNames structures tni with
      | none => Except.error (BlendError.attributeError "struct_dna")
      | some f => Except.ok f

/-- The per-name slot of the process-wide factory cache together with a
build counter. entry none is an absent key; entry some none is a key
whose weak reference died; entry some (some f) is a live weak reference
to f. -/
structure CacheState where
  entry : Option (Option FactoryModel)
  buildCount : Nat
deriving DecidableEq, Repr

/-- BlenderFile.list (lines 778-800): a live cached factory is returned
as is; an absent or dead entry triggers construction, and only a
successful construction is stored back under a fresh weak reference. -/
def listOpM (typeNames : List String) (structures : List BlendStructDNA)
    (nm : String) (st : CacheState) : Except BlendError FactoryModel × CacheState :=
  match st.entry with
  | some (some f) => (Except.ok f, st)
  | _ =>
      match buildFromName typeNames structures nm with
      | Except.error e => (Except.error e, st)
      | Except.ok f =>
          (Except.ok f, { entry := some (some f), buildCount := st.buildCount + 1 })

/-- A garbage collection pass: when no strong reference to the cached
factory survives outside the cache, the weak entry dies; otherwise
nothing changes. The cache itself never keeps a factory alive. -/
def collectOp (externRef : Bool) (st : CacheState) : CacheState :=
  if externRef then st
  else { st with entry := match st.entry with
                          | none => none
                          | some _ => some none }

/-- One cache-affecting event: a list call or a collection pass with the
given external-reference liveness. -/
inductive CacheOp
  | list
  | collect (externRef : Bool)
deriving DecidableEq, Repr

/-- Apply one cache event. -/
def stepCache (typeNames : List String) (structures : List BlendStructDNA)
    (nm : String) (st : CacheState) : CacheOp → CacheState
  | CacheOp.list => (listOpM typeNames structures nm st).2
  | CacheOp.collect b => collectOp b st

/-- Apply a sequence of cache events in order. -/
def runCache (typeNames : List String) (structures : List BlendStructDNA)
    (nm : String) (st : CacheState) (ops : List CacheOp) : CacheState :=
  ops.foldl (stepCache typeNames structures nm) st

/-- The blocks a factory iterates, in block-table order: exactly the
blocks whose sdna index matches (lines 330-333); each decodes to its
record by a pure function of the block bytes. -/
def factoryBlocks (blocks : List (BlendBlockHeader × Nat)) (f : FactoryModel) :
    List (BlendBlockHeader × Nat) :=
  blocks.filter (fun bo => bo.1.sdna == f.sdnaIndex)

/-- A factory whose sdna index owns worldBlock, for concrete pointer
resolution scenarios. -/
def wFactory : FactoryModel :=
  { sdnaIndex := 2, structDna := { index := 2, fields := [] },
    hasName := true, objectName := "World" }

/-- Python bytes.index of the zero byte followed by the slice from 2, as
find_by_name computes the stored identity name (line 471): a name field
with no zero byte raises ValueError. -/
def sliceName (nm : List Nat) : Except BlendError (List Nat) :=
  match nm.findIdx? (fun b => b == 0) with
  | none => Except.error (BlendError.valueError "subsection not found")
  | some i => Except.ok ((nm.drop 2).take (i - 2))

/-- UTF-8 bytes of an identifier string; on the ASCII names involved
this is the code point list, matching str.encode (line 468). -/
def strBytes (s : String) : List Nat := s.toList.map Char.toNat

/-- The scan loop of find_by_name (lines 469-474) over the id.name byte
strings of the iterated records, returning the index of the first match
and raising KeyError past the end. -/
def findByNameGo (tgt : List Nat) (objName nameStr : String) :
    List (List Nat) → Nat → Except BlendError Nat
  | [], _ => Except.error (BlendError.keyError
      ("File do not have " ++ objName ++ " objects named " ++ nameStr))
  | nm :: rest, i =>
      match sliceName nm with
      | Except.error e => Except.error e
      | Except.ok s => if s = tgt then Except.ok i else findByNameGo tgt objName nameStr rest (i + 1)

/-- BlenderObjectFactory.find_by_name (lines 458-474): the identity
precondition is checked before anything else, then the records are
scanned by stored name. -/
def findByName (hasName : Bool) (objName : String) (names : List (List Nat))
    (nameStr : String) : Except BlendError Nat :=
  if ¬ hasName then Except.error (BlendError.readFailure "Object type do not have a name")
  else findByNameGo (strBytes nameStr) objName nameStr names 0

/-- Decidable form of: the stored name slices cleanly and differs from
the target, used to state lookup-miss hypotheses. -/
def sliceOkNe (tgt : List Nat) (nm : List Nat) : Bool :=
  match sliceName nm with
  | Except.ok s => s != tgt
  | Except.error _ => false

/-- Type-name table of a tiny schema for cache scenarios. -/
def cacheTypeNames : List String := ["int", "Scene"]

/-- Structure table of the tiny schema: one structure defining type 1. -/
def cacheStructs : List BlendStructDNA := [{ index := 1, fields := [] }]

/-- The factory the tiny schema builds for the Scene name. -/
def cacheFactory : FactoryModel :=
  { sdnaIndex := 0, structDna := { index := 1, fields := [] },
    hasName := false, objectName := "Scene" }

/-- A cache slot holding a live weak reference to cacheFactory. -/
def cacheAlive : CacheState := { entry := some (some cacheFactory), buildCount := 1 }

/-- A cache slot whose weak reference died after a collection pass. -/
def cacheDead : CacheState := { entry := some none, buildCount := 1 }

/-- Left-biased choice on options, the accumulator shape taken by the
overwrite loop of _from_address. -/
def optOr {α : Type} (a b : Option α) : Option α :=
  match a with
  | some x => some x
  | none => b

/-- Decidable equality of call outcomes, for evaluating the model on
concrete inputs. -/
instance exceptDecEq {ε α : Type} [DecidableEq ε] [DecidableEq α] :
    DecidableEq (Except ε α) := fun x y =>
  match x, y with
  | Except.ok a, Except.ok b =>
      match decEq a b with
      | isTrue h => isTrue (h ▸ rfl)
      | isFalse h => isFalse fun hh => h (Except.ok.inj hh)
  | Except.error a, Except.error b =>
      match decEq a b with
      | isTrue h => isTrue (h ▸ rfl)
      | isFalse h => isFalse fun hh => h (Except.error.inj hh)
  | Except.ok _, Except.error _ => isFalse fun hh => Except.noConfusion hh
  | Except.error _, Except.ok _ => isFalse fun hh => Except.noConfusion hh

/-- Claim C1: the source definition of record equality fails the spec.
BlenderObject.__eq__ folds the per-field comparisons together with a
bitwise or-assignment (line 229), so two records of one type that agree
on any single field compare equal even when another field differs, and a
record of a structure with no decoded scalar fields is unequal to
itself; the spec conjunction specRecordEq disagrees on both inputs. -/
theorem record_equality_accumulates_or :
    blenderObjectEq recAgree recDiffer = true ∧
    specRecordEq recAgree recDiffer = false ∧
    blenderObjectEq recEmpty recEmpty = false ∧
    specRecordEq recEmpty recEmpty = true := by decide

/-- Claim C2, counterexample: with two blocks recorded at address 5 the
resolution returns the second block of the table, not the first, because
the scan loop of _from_address overwrites its candidate on every match
and has no break. -/
theorem from_address_duplicate_takes_last :
    fromAddress [(dupBlockA, 100), (dupBlockB, 200)] 5 = Except.ok (dupBlockB, 200) ∧
    ((dupBlockB, 200) : BlendBlockHeader × Nat) ≠ (dupBlockA, 100) := by decide

/-- Claim C3: after close alone the factory weakref still resolves, so
counting succeeds and returns data from the closed file state, iteration
fails with the closed-handle ValueError rather than the released-parent
RuntimeError, and the released-parent error only appears once the parent
object itself is freed. -/
theorem post_close_operations_not_released_error :
    factoryLen (closeFile liveFile) 3 = Except.ok 1 ∧
    factoryIterFirstRead (closeFile liveFile) 3
      = Except.error (BlendError.valueError "I/O operation on closed file") ∧
    BlendError.valueError "I/O operation on closed file"
      ≠ BlendError.runtimeError "Parent blend file was freed" ∧
    factoryLen { liveFile with refAlive := false } 3
      = Except.error (BlendError.runtimeError "Parent blend file was freed") := by decide

/-- Claim C4, counterexample: the descriptor slot self.value is shared
by every record of the class, so after one record resolves a nonzero
pointer through the field, a read of the same field on a record whose
stored address is zero returns the stale cached record instead of the
absent value none. -/
theorem pointer_zero_read_returns_stale_value :
    (addressLookupGet [(worldBlock, 100)]
        (addressLookupGet [(worldBlock, 100)] none (PtrVal.addr 5)).1
        (PtrVal.addr 0)).2
      = Except.ok (some (ResolveResult.one (worldBlock, 100))) ∧
    some (ResolveResult.one (worldBlock, 100)) ≠ (none : Option ResolveResult) := by decide

/-- Claim C5, counterexample: a 12-byte input with the literal tag,
valid arch and endian markers but three space bytes in the version
positions parses successfully into version components minus 16, because
_parse_header subtracts 48 from the version bytes without checking that
they are ASCII digits. -/
theorem parse_header_accepts_nondigit_version :
    parseHeader nonDigitHeader
      = some { version := { major := -16, minor := -16, rev := -16 },
               arch := BlendFileArch.X64, endian := BlendFileEndian.Little } ∧
    (nonDigitHeader.getD 9 0 < 48 ∨ 57 < nonDigitHeader.getD 9 0) := by decide

/-- Claim C6, counterexample: a pointer field with a bracket dimension
is exported with arity 4 and stored size 32, pointer width times arity,
not with arity forced to 1 and size equal to the pointer width. -/
theorem pointer_array_field_count_and_size :
    exportField 8 (strChars "*mat[4]") "Material" 344
      = { name := strChars "mat", type := "Material", size := 32, ptr := true, count := 4 } ∧
    ¬((exportField 8 (strChars "*mat[4]") "Material" 344).count = 1 ∧
      (exportField 8 (strChars "*mat[4]") "Material" 344).size = 8) := by decide

/-- Claim C7, counterexample: an int array whose raw name begins with an
underscore decodes as a single tuple, but under the attribute name with
the leading f added by fix_name, not under the bracket-stripped raw
name. -/
theorem underscore_array_field_name_prefixed :
    (compileFmt [exportField 8 (strChars "_pad[2]") "int" 4]).2
      = [strChars "f_pad_0_2", strChars "f_pad_1_2"] ∧
    setFields (compileFmt [exportField 8 (strChars "_pad[2]") "int" 4]).2
        [SVal.int 7, SVal.int 9]
      = [(strChars "f_pad", Val.tup [SVal.int 7, SVal.int 9])] ∧
    strChars "f_pad" ≠ strChars "_pad" := by decide

/-- Helper: the overwrite fold of the _from_address scan computes the
final match of the table, the first match of the reversed table, with
the starting accumulator as fallback. -/
theorem findBlockAtAux (ptr : Nat) (l : List (BlendBlockHeader × Nat))
    (acc : Option (BlendBlockHeader × Nat)) :
    l.foldl (fun a bo => if bo.1.addr == ptr then some bo else a) acc
      = (l.reverse.find? (fun bo => bo.1.addr == ptr)).or acc := by
  induction l generalizing acc with
  | nil => simp
  | cons x xs ih =>
      simp only [List.foldl_cons, List.reverse_cons, List.find?_append]
      rw [ih]
      cases hp : (x.1.addr == ptr) with
      | true =>
          have hx : List.find? (fun bo => bo.1.addr == ptr) [x] = some x :=
            List.find?_cons_of_pos _ hp
          simp [hx, Option.or_assoc, Option.or_some]
      | false =>
          have hx : List.find? (fun bo => bo.1.addr == ptr) [x] = none := by
            simp [List.find?_cons, hp]
          simp [hx, Option.or_assoc, Option.none_or]

/-- Helper: the first match of a list is the head of its filtration. -/
theorem find_eq_filter_head {α : Type} (p : α → Bool) (l : List α) :
    l.find? p = (l.filter p).head? := by
  induction l with
  | nil => rfl
  | cons x xs ih =>
      cases hp : p x with
      | true =>
          rw [List.find?_cons_of_pos _ hp, List.filter_cons]
          rw [if_pos hp]
          rfl
      | false =>
          rw [List.find?_cons_of_neg _ (by simp [hp]), List.filter_cons]
          rw [if_neg (by simp [hp])]
          exact ih

/-- Claim C2, amended: for a nonzero address the resolution performs a
linear scan of the block table in file order and decodes the LAST block
whose recorded address matches, the overwrite loop having no break;
when no block matches it fails with a ReadFailure naming the address. -/
theorem from_address_scan_spec (blocks : List (BlendBlockHeader × Nat)) (ptr : Nat) :
    fromAddress blocks ptr =
      match blocks.reverse.find? (fun bo => bo.1.addr == ptr) with
      | some bo => Except.ok bo
      | none => Except.error (BlendError.readFailure (addrErrMsg ptr)) := by
  unfold fromAddress findBlockAt
  rw [findBlockAtAux]
  cases blocks.reverse.find? (fun bo => bo.1.addr == ptr) <;> rfl

/-- Claim C4, amended: a pointer-field read with stored address zero
returns the descriptor cache unchanged, which is none unless an earlier
read through the same class-level descriptor resolved successfully; a
nonzero address recorded in no block raises a ReadFailure naming the
address and leaves the cache unchanged; a nonzero address matching
exactly one block resolves to that block, whose decode is a pure
function of the block bytes, and the same block is the unique element of
the owning factory iteration filtered by that address. -/
theorem pointer_field_read_semantics (blocks : List (BlendBlockHeader × Nat))
    (st : Option ResolveResult) (n : Nat) :
    (addressLookupGet blocks st (PtrVal.addr 0) = (st, Except.ok st)) ∧
    (n ≠ 0 → blocks.all (fun bo => bo.1.addr != n) = true →
        addressLookupGet blocks st (PtrVal.addr n)
          = (st, Except.error (BlendError.readFailure (addrErrMsg n)))) ∧
    (n ≠ 0 → ∀ bo : BlendBlockHeader × Nat,
        blocks.filter (fun x => x.1.addr == n) = [bo] →
        (addressLookupGet blocks st (PtrVal.addr n)
            = (some (ResolveResult.one bo), Except.ok (some (ResolveResult.one bo)))) ∧
        (∀ f : FactoryModel, f.sdnaIndex = bo.1.sdna →
            (factoryBlocks blocks f).filter (fun x => x.1.addr == n) = [bo])) := by
  refine ⟨by simp [addressLookupGet], ?_, ?_⟩
  · intro hn hall
    have hnone : blocks.reverse.find? (fun bo => bo.1.addr == n) = none := by
      rw [List.find?_eq_none]
      intro x hx
      have hx2 := (List.all_eq_true.mp hall) x (List.mem_reverse.mp hx)
      simp only [bne_iff_ne, ne_eq] at hx2
      simp [hx2]
    have hfa : fromAddress blocks n = Except.error (BlendError.readFailure (addrErrMsg n)) := by
      unfold fromAddress findBlockAt
      rw [findBlockAtAux, hnone]
      rfl
    simp [addressLookupGet, hn, hfa]
  · intro hn bo huniq
    have hfind : blocks.reverse.find? (fun x => x.1.addr == n) = some bo := by
      rw [find_eq_filter_head, List.filter_reverse, huniq]
      rfl
    have hfa : fromAddress blocks n = Except.ok bo := by
      unfold fromAddress findBlockAt
      rw [findBlockAtAux, hfind]
      rfl
    refine ⟨by simp [addressLookupGet, hn, hfa], ?_⟩
    intro f hf
    unfold factoryBlocks
    rw [List.filter_filter]
    rw [List.filter_congr (fun a _ => Bool.and_comm (a.1.addr == n) (a.1.sdna == f.sdnaIndex))]
    rw [← List.filter_filter, huniq]
    simp [List.filter_cons, hf]

/-- Witness for pointer_field_read_semantics on a one-block table: the
zero read on a fresh descriptor, the unresolved address 7, and the
unique resolution of address 5 with its factory filtration. -/
theorem pointer_field_read_semantics_witness :
    addressLookupGet [(worldBlock, 100)] none (PtrVal.addr 0) = (none, Except.ok none) ∧
    addressLookupGet [(worldBlock, 100)] none (PtrVal.addr 7)
      = (none, Except.error (BlendError.readFailure (addrErrMsg 7))) ∧
    addressLookupGet [(worldBlock, 100)] none (PtrVal.addr 5)
      = (some (ResolveResult.one (worldBlock, 100)),
         Except.ok (some (ResolveResult.one (worldBlock, 100)))) ∧
    (factoryBlocks [(worldBlock, 100)] wFactory).filter (fun x => x.1.addr == 5)
      = [(worldBlock, 100)] := by
  refine ⟨(pointer_field_read_semantics [(worldBlock, 100)] none 0).1,
          (pointer_field_read_semantics [(worldBlock, 100)] none 7).2.1 (by decide) (by decide),
          ((pointer_field_read_semantics [(worldBlock, 100)] none 5).2.2 (by decide)
            (worldBlock, 100) (by decide)).1,
          ((pointer_field_read_semantics [(worldBlock, 100)] none 5).2.2 (by decide)
            (worldBlock, 100) (by decide)).2 wFactory (by decide)⟩

/-- Helper: the arch dispatch succeeds exactly on the two markers. -/
theorem archOfByte_isSome (b : Nat) : (archOfByte b).isSome ↔ (b = 45 ∨ b = 95) := by
  unfold archOfByte
  by_cases h1 : b = 45 <;> by_cases h2 : b = 95 <;> simp [h1, h2]

/-- Helper: the endian dispatch succeeds exactly on the two markers. -/
theorem endianOfByte_isSome (b : Nat) : (endianOfByte b).isSome ↔ (b = 118 ∨ b = 86) := by
  unfold endianOfByte
  by_cases h1 : b = 118 <;> by_cases h2 : b = 86 <;> simp [h1, h2]

/-- Claim C5, amended: the 12-byte header parses successfully exactly
when the length is 12, bytes 0 to 6 are the literal tag, byte 7 is one
of the two arch markers and byte 8 is one of the two endian markers; the
version bytes 9 to 11 are taken as byte minus 48 with no ASCII digit
validation; any mismatch of the checked parts makes open raise the
bad-header ImportFailure. -/
theorem parse_header_characterization (h : List Nat) :
    ((parseHeader h).isSome ↔
      (h.length = 12 ∧ h.take 7 = blenderTag ∧
       (h.getD 7 0 = 45 ∨ h.getD 7 0 = 95) ∧ (h.getD 8 0 = 118 ∨ h.getD 8 0 = 86))) ∧
    (∀ hd, parseHeader h = some hd →
       hd.version = { major := (h.getD 9 0 : Int) - 48, minor := (h.getD 10 0 : Int) - 48,
                      rev := (h.getD 11 0 : Int) - 48 }) ∧
    (parseHeader h = none →
       openHeader h = Except.error (BlendError.importFailure "Bad file header")) := by
  refine ⟨?_, ?_, ?_⟩
  · unfold parseHeader
    by_cases h12 : h.length = 12 ∧ h.take 7 = blenderTag
    · rw [if_pos h12]
      cases harc : archOfByte (h.getD 7 0) with
      | some a =>
          cases hend : endianOfByte (h.getD 8 0) with
          | some e =>
              have ha : h.getD 7 0 = 45 ∨ h.getD 7 0 = 95 := by
                rw [← archOfByte_isSome, harc]; rfl
              have he : h.getD 8 0 = 118 ∨ h.getD 8 0 = 86 := by
                rw [← endianOfByte_isSome, hend]; rfl
              constructor
              · intro _; exact ⟨h12.1, h12.2, ha, he⟩
              · intro _; rfl
          | none =>
              have he : ¬(h.getD 8 0 = 118 ∨ h.getD 8 0 = 86) := by
                rw [← endianOfByte_isSome, hend]; simp
              constructor
              · intro habs; simp at habs
              · intro hc; exact absurd hc.2.2.2 he
      | none =>
          have ha : ¬(h.getD 7 0 = 45 ∨ h.getD 7 0 = 95) := by
            rw [← archOfByte_isSome, harc]; simp
          cases hend : endianOfByte (h.getD 8 0) with
          | some e =>
              constructor
              · intro habs; simp at habs
              · intro hc; exact absurd hc.2.2.1 ha
          | none =>
              constructor
              · intro habs; simp at habs
              · intro hc; exact absurd hc.2.2.1 ha
    · rw [if_neg h12]
      constructor
      · intro habs; simp at habs
      · intro hc; exact absurd ⟨hc.1, hc.2.1⟩ h12
  · intro hd hhd
    unfold parseHeader at hhd
    by_cases h12 : h.length = 12 ∧ h.take 7 = blenderTag
    · rw [if_pos h12] at hhd
      cases harc : archOfByte (h.getD 7 0) with
      | some a =>
          cases hend : endianOfByte (h.getD 8 0) with
          | some e =>
              rw [harc, hend] at hhd
              cases hhd
              rfl
          | none => rw [harc, hend] at hhd; cases hhd
      | none =>
          rw [harc] at hhd
          cases hend : endianOfByte (h.getD 8 0) <;> rw [hend] at hhd <;> cases hhd
    · rw [if_neg h12] at hhd
      cases hhd
  · intro hn
    unfold openHeader
    rw [hn]

/-- Witness for parse_header_characterization: the version of the
parsed 277 header equals the byte arithmetic, and a wrong tag byte makes
open fail with the bad-header ImportFailure. -/
theorem parse_header_characterization_witness :
    ({ version := { major := 2, minor := 7, rev := 7 }, arch := BlendFileArch.X64,
       endian := BlendFileEndian.Little } : BlendFileHeader).version
      = { major := (goodHeader.getD 9 0 : Int) - 48, minor := (goodHeader.getD 10 0 : Int) - 48,
          rev := (goodHeader.getD 11 0 : Int) - 48 } ∧
    openHeader badTagHeader = Except.error (BlendError.importFailure "Bad file header") :=
  ⟨(parse_header_characterization goodHeader).2.1 _ (by decide),
   (parse_header_characterization badTagHeader).2.2 (by decide)⟩

/-- Claim C10: assigning to or deleting a pointer field raises
AttributeError through the descriptor protocol before any state is
touched, so the record field values and the descriptor cache are
returned unchanged. -/
theorem pointer_field_write_protected (recFields : List Val)
    (st : Option ResolveResult) (v : Val) :
    addressLookupSet recFields st v
      = (Except.error (BlendError.attributeError "Attribute cannot be setted"), (recFields, st)) ∧
    addressLookupDel recFields st
      = (Except.error (BlendError.attributeError "Attribute cannot be deleted"), (recFields, st)) :=
  ⟨rfl, rfl⟩


/-- Helper: a cache step that is a list call on a live entry or a
collection pass under a surviving strong reference leaves the state
unchanged. -/
theorem stepCacheKeep (tns : List String) (sts : List BlendStructDNA) (nm : String)
    (st : CacheState) (f : FactoryModel) (halive : st.entry = some (some f))
    (op : CacheOp) (hop : op = CacheOp.list ∨ op = CacheOp.collect true) :
    stepCache tns sts nm st op = st := by
  cases hop with
  | inl h => rw [h]; simp [stepCache, listOpM, halive]
  | inr h => rw [h]; simp [stepCache, collectOp]

/-- Claim C8: while any strong reference keeps the weak cache entry for
a structure name alive, list returns the identical cached factory and
never rebuilds, across any sequence of list calls and collection passes
under a surviving reference; a dead or absent entry behaves as a miss,
and because construction is a pure function of the schema, the factory
rebuilt after eviction equals the one originally built, so its iterated
record blocks and decoded records coincide. -/
theorem factory_cache_weak_semantics (tns : List String) (sts : List BlendStructDNA)
    (nm : String) (st : CacheState) (f : FactoryModel)
    (halive : st.entry = some (some f)) :
    (listOpM tns sts nm st = (Except.ok f, st)) ∧
    (∀ ops : List CacheOp,
        (∀ op ∈ ops, op = CacheOp.list ∨ op = CacheOp.collect true) →
        runCache tns sts nm st ops = st) ∧
    (buildFromName tns sts nm = Except.ok f →
        ∀ st2 : CacheState, (st2.entry = none ∨ st2.entry = some none) →
          listOpM tns sts nm st2
            = (Except.ok f, { entry := some (some f), buildCount := st2.buildCount + 1 })) := by
  refine ⟨by simp [listOpM, halive], ?_, ?_⟩
  · intro ops
    induction ops with
    | nil => intro _; rfl
    | cons op rest ih =>
        intro hops
        have hstep := stepCacheKeep tns sts nm st f halive op
          (hops op (List.mem_cons_self op rest))
        have hrest : ∀ o ∈ rest, o = CacheOp.list ∨ o = CacheOp.collect true :=
          fun o ho => hops o (List.mem_cons_of_mem _ ho)
        unfold runCache
        rw [List.foldl_cons, hstep]
        exact ih hrest
  · intro hb st2 hdead
    cases hdead with
    | inl h => simp [listOpM, h, hb]
    | inr h => simp [listOpM, h, hb]

/-- Witness for factory_cache_weak_semantics on the tiny Scene schema:
the live entry is returned unchanged, a list-collect-list run keeps the
state, and the dead entry rebuilds the equal factory with one more
build. -/
theorem factory_cache_weak_semantics_witness :
    listOpM cacheTypeNames cacheStructs "Scene" cacheAlive = (Except.ok cacheFactory, cacheAlive) ∧
    runCache cacheTypeNames cacheStructs "Scene" cacheAlive
        [CacheOp.list, CacheOp.collect true, CacheOp.list] = cacheAlive ∧
    listOpM cacheTypeNames cacheStructs "Scene" cacheDead
      = (Except.ok cacheFactory,
         { entry := some (some cacheFactory), buildCount := cacheDead.buildCount + 1 }) :=
  ⟨(factory_cache_weak_semantics cacheTypeNames cacheStructs "Scene" cacheAlive cacheFactory
      (by decide)).1,
   (factory_cache_weak_semantics cacheTypeNames cacheStructs "Scene" cacheAlive cacheFactory
      (by decide)).2.1 _ (by decide),
   (factory_cache_weak_semantics cacheTypeNames cacheStructs "Scene" cacheAlive cacheFactory
      (by decide)).2.2 (by decide) cacheDead (Or.inr (by decide))⟩

/-- Helper: when every stored name slices cleanly and differs from the
target, the scan loop runs past the end and raises the KeyError, at any
starting index. -/
theorem findByNameGoMiss (tgt : List Nat) (objName nameStr : String)
    (names : List (List Nat)) :
    names.all (sliceOkNe tgt) = true → ∀ i,
    findByNameGo tgt objName nameStr names i
      = Except.error (BlendError.keyError
          ("File do not have " ++ objName ++ " objects named " ++ nameStr)) := by
  induction names with
  | nil => intro _ i; rfl
  | cons nm rest ih =>
      intro hall i
      have h1 := (List.all_eq_true.mp hall) nm (List.mem_cons_self _ _)
      have hrest : rest.all (sliceOkNe tgt) = true := by
        rw [List.all_eq_true]
        intro x hx
        exact (List.all_eq_true.mp hall) x (List.mem_cons_of_mem _ hx)
      unfold findByNameGo
      unfold sliceOkNe at h1
      cases hs : sliceName nm with
      | error e => rw [hs] at h1; simp at h1
      | ok s =>
          rw [hs] at h1
          have hne : ¬ s = tgt := by simpa using h1
          show (if s = tgt then Except.ok i
                else findByNameGo tgt objName nameStr rest (i + 1)) = _
          rw [if_neg hne]
          exact ih hrest (i + 1)

/-- Claim C9: find_by_name on a type lacking an identity field raises
the ReadFailure before looking at the argument or the records; on a type
with identity but no record of the requested name, provided every stored
identity name is well formed, it raises the KeyError lookup miss; and
the two error kinds are distinct constructors, distinguishable by the
caller. -/
theorem find_by_name_error_kinds (objName nameStr : String) (names : List (List Nat)) :
    (findByName false objName names nameStr
        = Except.error (BlendError.readFailure "Object type do not have a name")) ∧
    (names.all (sliceOkNe (strBytes nameStr)) = true →
        findByName true objName names nameStr
          = Except.error (BlendError.keyError
              ("File do not have " ++ objName ++ " objects named " ++ nameStr))) ∧
    (∀ m1 m2 : String, BlendError.readFailure m1 ≠ BlendError.keyError m2) := by
  refine ⟨rfl, ?_, fun m1 m2 h => BlendError.noConfusion h⟩
  intro hall
  unfold findByName
  rw [if_neg (by simp)]
  exact findByNameGoMiss (strBytes nameStr) objName nameStr names hall 0

/-- Witness for find_by_name_error_kinds: the identity precondition
failure on a nameless type, and the lookup miss on a World list holding
one record named BOO when ZZZ is requested. -/
theorem find_by_name_error_kinds_witness :
    findByName false "rctf" [[0]] "blah"
      = Except.error (BlendError.readFailure "Object type do not have a name") ∧
    findByName true "World" [[87, 79, 66, 79, 79, 0]] "ZZZ"
      = Except.error (BlendError.keyError
          ("File do not have " ++ "World" ++ " objects named " ++ "ZZZ")) :=
  ⟨(find_by_name_error_kinds "rctf" "blah" [[0]]).1,
   (find_by_name_error_kinds "World" "ZZZ" [[87, 79, 66, 79, 79, 0]]).2.1 (by decide)⟩

/-- Helper: the character of a decimal digit is an ASCII digit. -/
theorem digitCh_isDigit (d : Nat) (hd : d < 10) : (digitCh d).isDigit = true := by
  interval_cases d <;> decide

/-- Helper: code point arithmetic inverts the digit character. -/
theorem digitCh_toNat (d : Nat) (hd : d < 10) : (digitCh d).toNat - 48 = d := by
  interval_cases d <;> decide

/-- Helper: appending one digit multiplies the accumulated value by ten. -/
theorem digitsToNat_append (cs : List Char) (c : Char) :
    digitsToNat (cs ++ [c]) = 10 * digitsToNat cs + (c.toNat - 48) := by
  unfold digitsToNat
  rw [List.foldl_append]
  rfl

/-- Helper: with enough fuel the decimal rendering is nonempty, consists
of digits, and is inverted by digitsToNat. -/
theorem natDigitsGo_spec (fuel : Nat) : ∀ n, n < fuel →
    natDigitsGo fuel n ≠ [] ∧ (∀ c ∈ natDigitsGo fuel n, c.isDigit = true) ∧
    digitsToNat (natDigitsGo fuel n) = n := by
  induction fuel with
  | zero => intro n hn; omega
  | succ fuel ih =>
      intro n hn
      unfold natDigitsGo
      by_cases h10 : n < 10
      · rw [if_pos h10]
        refine ⟨by simp, ?_, ?_⟩
        · intro c hc
          simp at hc
          subst hc
          exact digitCh_isDigit n h10
        · have := digitCh_toNat n h10
          unfold digitsToNat
          simp [List.foldl]
          omega
      · rw [if_neg h10]
        have hdiv : n / 10 < fuel := by omega
        have h1 := ih (n / 10) hdiv
        have hm : n % 10 < 10 := Nat.mod_lt _ (by omega)
        refine ⟨by simp, ?_, ?_⟩
        · intro c hc
          rw [List.mem_append] at hc
          cases hc with
          | inl h => exact h1.2.1 c h
          | inr h =>
              simp at h
              subst h
              exact digitCh_isDigit (n % 10) hm
        · rw [digitsToNat_append, h1.2.2]
          have := digitCh_toNat (n % 10) hm
          omega

/-- Helper: a decimal rendering is never empty. -/
theorem decimalChars_ne_nil (n : Nat) : decimalChars n ≠ [] :=
  (natDigitsGo_spec (n + 1) n (by omega)).1

/-- Helper: a decimal rendering consists of ASCII digits. -/
theorem decimalChars_digits (n : Nat) : ∀ c ∈ decimalChars n, c.isDigit = true :=
  (natDigitsGo_spec (n + 1) n (by omega)).2.1

/-- Helper: parsing inverts the decimal rendering. -/
theorem digitsToNat_decimalChars (n : Nat) : digitsToNat (decimalChars n) = n :=
  (natDigitsGo_spec (n + 1) n (by omega)).2.2

/-- Helper: takeWhile swallows a satisfying block and stops at the first
failing element. -/
theorem takeWhile_append_stop (p : Char → Bool) (xs : List Char) (y : Char) (ys : List Char)
    (hxs : ∀ c ∈ xs, p c = true) (hy : p y = false) :
    (xs ++ y :: ys).takeWhile p = xs := by
  induction xs with
  | nil => simp [List.takeWhile_cons, hy]
  | cons a as ih =>
      have ha := hxs a (List.mem_cons_self _ _)
      rw [List.cons_append, List.takeWhile_cons_of_pos ha]
      rw [ih (fun c hc => hxs c (List.mem_cons_of_mem _ hc))]

/-- Helper: dropWhile drops the satisfying block and keeps the rest. -/
theorem dropWhile_append_stop (p : Char → Bool) (xs : List Char) (y : Char) (ys : List Char)
    (hxs : ∀ c ∈ xs, p c = true) (hy : p y = false) :
    (xs ++ y :: ys).dropWhile p = y :: ys := by
  induction xs with
  | nil => simp [List.dropWhile_cons, hy]
  | cons a as ih =>
      have ha := hxs a (List.mem_cons_self _ _)
      rw [List.cons_append, List.dropWhile_cons_of_pos ha]
      exact ih (fun c hc => hxs c (List.mem_cons_of_mem _ hc))

/-- Helper: every generated per-element array name matches the grouping
template, capturing the base name and the array length. -/
theorem splitArraySuffix_elem (base : List Char) (hb : base ≠ []) (i N : Nat) :
    splitArraySuffix (arrayElemName base i N) = some (base, N) := by
  have hrev : (arrayElemName base i N).reverse
      = (decimalChars N).reverse ++ '_' :: ((decimalChars i).reverse ++ '_' :: base.reverse) := by
    unfold arrayElemName
    simp [List.reverse_append, List.reverse_cons, List.append_assoc]
  have hdigN : ∀ c ∈ (decimalChars N).reverse, Char.isDigit c = true :=
    fun c hc => decimalChars_digits N c (List.mem_reverse.mp hc)
  have hdigI : ∀ c ∈ (decimalChars i).reverse, Char.isDigit c = true :=
    fun c hc => decimalChars_digits i c (List.mem_reverse.mp hc)
  have hu : Char.isDigit '_' = false := by decide
  have htake2 : ((decimalChars N).reverse
        ++ '_' :: ((decimalChars i).reverse ++ '_' :: base.reverse)).takeWhile Char.isDigit
      = (decimalChars N).reverse := takeWhile_append_stop _ _ _ _ hdigN hu
  have hdrop2 : ((decimalChars N).reverse
        ++ '_' :: ((decimalChars i).reverse ++ '_' :: base.reverse)).dropWhile Char.isDigit
      = '_' :: ((decimalChars i).reverse ++ '_' :: base.reverse) :=
    dropWhile_append_stop _ _ _ _ hdigN hu
  have htake1 : ((decimalChars i).reverse ++ '_' :: base.reverse).takeWhile Char.isDigit
      = (decimalChars i).reverse := takeWhile_append_stop _ _ _ _ hdigI hu
  have hdrop1 : ((decimalChars i).reverse ++ '_' :: base.reverse).dropWhile Char.isDigit
      = '_' :: base.reverse := dropWhile_append_stop _ _ _ _ hdigI hu
  have hne2 : ((decimalChars N).reverse).isEmpty = false := by
    cases hN : (decimalChars N).reverse with
    | nil => exact absurd (by simpa using congrArg List.reverse hN) (decimalChars_ne_nil N)
    | cons a as => rfl
  have hne1 : ((decimalChars i).reverse).isEmpty = false := by
    cases hI : (decimalChars i).reverse with
    | nil => exact absurd (by simpa using congrArg List.reverse hI) (decimalChars_ne_nil i)
    | cons a as => rfl
  have hneb : (base.reverse).isEmpty = false := by
    cases hB : base.reverse with
    | nil => exact absurd (by simpa using congrArg List.reverse hB) hb
    | cons a as => rfl
  unfold splitArraySuffix
  rw [hrev]
  simp only [htake2, hdrop2, hne2, htake1, hdrop1, hne1, hneb, Bool.false_eq_true, if_false,
    List.reverse_reverse, digitsToNat_decimalChars]

/-- Helper: once a group of k missing slots is being collected, the next
k pairs are consumed, the gathered values are set in order under the
base name, and the names of the consumed pairs are ignored. -/
theorem setFieldsCollect (base : List Char) (pairs : List (List Char × SVal)) :
    ∀ k acc, pairs.length = k → 1 ≤ k →
    setFieldsGo pairs (some (base, k, acc))
      = [(base, Val.tup (acc.reverse ++ pairs.map Prod.snd))] := by
  induction pairs with
  | nil =>
      intro k acc hk h1
      simp at hk
      omega
  | cons pv rest ih =>
      intro k acc hk h1
      obtain ⟨n, v⟩ := pv
      by_cases hk1 : k ≤ 1
      · have hrest : rest = [] := by
          have : rest.length = 0 := by simp at hk; omega
          exact List.length_eq_zero.mp this
        subst hrest
        unfold setFieldsGo
        rw [if_pos hk1]
        simp [setFieldsGo]
      · unfold setFieldsGo
        rw [if_neg hk1]
        have hlen : rest.length = k - 1 := by simp at hk; omega
        rw [ih (k - 1) (v :: acc) hlen (by omega)]
        simp [List.reverse_cons, List.append_assoc]

/-- Helper: the decode names of an array of arity N, fed with its N
unpacked slot values, regroup into the single tuple attribute under the
base name, exactly as _set_fields runs on a compiled plan. -/
theorem setFields_array_group (base : List Char) (hb : base ≠ []) (N : Nat) (hN : 2 ≤ N)
    (vs : List SVal) (hlen : vs.length = N) :
    setFields ((List.range N).map (fun i => arrayElemName base i N)) vs
      = [(base, Val.tup vs)] := by
  obtain ⟨n, rfl⟩ : ∃ n, N = n + 1 := ⟨N - 1, by omega⟩
  cases vs with
  | nil => simp at hlen
  | cons v vs' =>
      have hvs' : vs'.length = n := by simpa using hlen
      rw [List.range_succ_eq_map, List.map_cons, List.map_map]
      unfold setFields
      rw [List.zip_cons_cons]
      unfold setFieldsGo
      rw [splitArraySuffix_elem base hb 0 (n + 1)]
      have h2 : ¬(n + 1 ≤ 1) := by omega
      simp only [h2, if_false]
      have hzlen : (((List.range n).map
          ((fun i => arrayElemName base i (n + 1)) ∘ Nat.succ)).zip vs').length = n := by
        simp [List.length_zip, hvs']
      have hcoll := setFieldsCollect base
        (((List.range n).map ((fun i => arrayElemName base i (n + 1)) ∘ Nat.succ)).zip vs')
        n [v] hzlen (by omega)
      have hsub : n + 1 - 1 = n := by omega
      rw [hsub, hcoll]
      have hsnd : (((List.range n).map
          ((fun i => arrayElemName base i (n + 1)) ∘ Nat.succ)).zip vs').map Prod.snd = vs' := by
        apply List.map_snd_zip
        simp [hvs']
      rw [hsnd]
      rfl

/-- Helper: fixing a nonempty name keeps it nonempty. -/
theorem fixName_ne_nil (base : List Char) (hb : base ≠ []) : fixName base ≠ [] := by
  unfold fixName
  by_cases h : base.head? = some '_'
  · rw [if_pos h]; exact List.cons_ne_nil _ _
  · rw [if_neg h]; exact hb

/-- Helper: on a nonempty base the underscore fix commutes with
appending the per-element array suffix, because the suffix never
changes the head character. -/
theorem fixName_arrayElemName (base : List Char) (hb : base ≠ []) (i N : Nat) :
    fixName (arrayElemName base i N) = arrayElemName (fixName base) i N := by
  cases base with
  | nil => exact absurd rfl hb
  | cons a as =>
      unfold fixName arrayElemName
      by_cases ha : a = '_'
      · subst ha
        simp [List.head?, List.cons_append]
      · simp [List.head?, List.cons_append, ha]

/-- Helper: the export of a pointer-sigil field, in closed form: the
declared type size is discarded in favour of the pointer width, and a
bracket suffix multiplies both count and stored size. -/
theorem exportField_ptr_eq (p : Nat) (raw : List Char) (tn : String) (ts : Nat)
    (hp : raw.head? = some '*') :
    exportField p raw tn ts =
      (if raw.getLast? = some ']' then
        { name := (stripLeadingStars raw).takeWhile (fun c => c != '['), type := tn,
          size := p * natProd (scanBrackets (stripLeadingStars raw)), ptr := true,
          count := natProd (scanBrackets (stripLeadingStars raw)) }
      else { name := stripLeadingStars raw, type := tn, size := p, ptr := true, count := 1 }) := by
  unfold exportField
  have hb : (raw.head? == some '*') = true := by simp [hp]
  by_cases harr : raw.getLast? = some ']'
  · have hb2 : (raw.getLast? == some ']') = true := by simp [harr]
    simp only [hb, hb2, if_true, if_pos harr]
  · have hb2 : (raw.getLast? == some ']') = false := by simp [harr]
    simp only [hb, hb2, if_true, Bool.false_eq_true, if_false, if_neg harr]

/-- Helper: the export of a plain bracketed field, in closed form. -/
theorem exportField_arr_eq (p : Nat) (raw : List Char) (tn : String) (ts : Nat)
    (hp : raw.head? ≠ some '*') (harr : raw.getLast? = some ']') :
    exportField p raw tn ts =
      { name := raw.takeWhile (fun c => c != '['), type := tn,
        size := ts * natProd (scanBrackets raw), ptr := false,
        count := natProd (scanBrackets raw) } := by
  unfold exportField
  have hb : (raw.head? == some '*') = false := by simp [hp]
  have hb2 : (raw.getLast? == some ']') = true := by simp [harr]
  simp only [hb, hb2, Bool.false_eq_true, if_false, if_true]

/-- Helper: a pointer field of arity at least two compiles to that many
pointer slots whose decode regroups into one tuple of addresses under
the ptr-prefixed fixed name. -/
theorem compileField_ptr_group (f : BlendStructField) (hptr : f.ptr = true)
    (hchar : f.type ≠ "char") (hcount : 2 ≤ f.count) (hname : f.name ≠ [])
    (vs : List SVal) (hvs : vs.length = f.count) :
    (compileField f).1 = [FmtItem.ptr f.count] ∧
    setFields (compileField f).2 vs = [(ptrTag ++ fixName f.name, Val.tup vs)] := by
  have hred : compileField f
      = ([FmtItem.ptr f.count], (elemNames f).map (fun n => ptrTag ++ n)) := by
    unfold compileField
    rw [hptr]
    rfl
  rw [hred]
  refine ⟨rfl, ?_⟩
  unfold elemNames
  rw [if_pos ⟨by omega, hchar⟩]
  rw [List.map_map]
  have hcomp : ((fun n => ptrTag ++ n) ∘ (fun i => fixName (arrayElemName f.name i f.count)))
      = fun i => arrayElemName (ptrTag ++ fixName f.name) i f.count := by
    funext i
    show ptrTag ++ fixName (arrayElemName f.name i f.count) = _
    rw [fixName_arrayElemName f.name hname]
    unfold arrayElemName
    simp [List.append_assoc]
  rw [hcomp]
  exact setFields_array_group (ptrTag ++ fixName f.name)
    (by unfold ptrTag; simp) f.count hcount vs hvs

/-- Helper: a primitive non-char field of arity at least two compiles to
that many scalar slots whose decode regroups into one tuple under the
fixed name. -/
theorem compileField_prim_group (f : BlendStructField) (hptr : f.ptr = false)
    (code : Char) (hlook : baseTypesL.lookup f.type = some code) (hchar : f.type ≠ "char")
    (hcount : 2 ≤ f.count) (hname : f.name ≠ []) (vs : List SVal) (hvs : vs.length = f.count) :
    (compileField f).1 = [FmtItem.prim f.count code] ∧
    setFields (compileField f).2 vs = [(fixName f.name, Val.tup vs)] := by
  have hred : compileField f = ([FmtItem.prim f.count code], elemNames f) := by
    unfold compileField
    rw [hptr]
    simp only [Bool.false_eq_true, if_false]
    rw [hlook]
    show (if f.type = "char" ∧ 1 < f.count then ([FmtItem.str f.count], elemNames f)
          else ([FmtItem.prim f.count code], elemNames f)) = _
    rw [if_neg (fun hc => hchar hc.1)]
  rw [hred]
  refine ⟨rfl, ?_⟩
  unfold elemNames
  rw [if_pos ⟨by omega, hchar⟩]
  have hcomp : (fun i => fixName (arrayElemName f.name i f.count))
      = fun i => arrayElemName (fixName f.name) i f.count := by
    funext i
    exact fixName_arrayElemName f.name hname i f.count
  rw [hcomp]
  exact setFields_array_group (fixName f.name) (fixName_ne_nil f.name hname) f.count hcount vs hvs

/-- Helper: a char array compiles to one fixed-length byte-string slot
under the single fixed name, set as one value rather than regrouped. -/
theorem compileField_char_single (f : BlendStructField) (hptr : f.ptr = false)
    (hchar : f.type = "char") (hcount : 1 < f.count)
    (hsplit : splitArraySuffix (fixName f.name) = none) (bs : List Nat) :
    (compileField f).1 = [FmtItem.str f.count] ∧
    (compileField f).2 = [fixName f.name] ∧
    setFields [fixName f.name] [SVal.bytes bs] = [(fixName f.name, Val.s (SVal.bytes bs))] := by
  have hlook : baseTypesL.lookup f.type = some 'c' := by rw [hchar]; rfl
  have helems : elemNames f = [fixName f.name] := by
    unfold elemNames
    rw [if_neg (fun hc => hc.2 hchar)]
  have hred : compileField f = ([FmtItem.str f.count], [fixName f.name]) := by
    unfold compileField
    rw [hptr]
    simp only [Bool.false_eq_true, if_false]
    rw [hlook]
    show (if f.type = "char" ∧ 1 < f.count then ([FmtItem.str f.count], elemNames f)
          else ([FmtItem.prim f.count 'c'], elemNames f)) = _
    rw [if_pos ⟨hchar, hcount⟩, helems]
  rw [hred]
  refine ⟨rfl, rfl, ?_⟩
  unfold setFields
  rw [List.zip_cons_cons]
  unfold setFieldsGo
  rw [hsplit]
  rfl

/-- Claim C6, amended: a raw field name with a leading pointer sigil
compiles to a ResolvedField with is-pointer true whose per-address slot
width is the architecture pointer width, independent of the declared
type size; the arity is NOT forced to 1: it is the product of the
bracket dimensions when a bracket suffix follows (1 only without one),
the stored size is pointer width times arity, and a pointer array
occupies arity pointer slots in the decode plan, regrouped into one
ordered tuple of arity addresses under the ptr-prefixed stripped name. -/
theorem pointer_field_compilation (p ts : Nat) (raw : List Char) (tn : String)
    (hp : raw.head? = some '*') :
    ((exportField p raw tn ts).ptr = true) ∧
    ((exportField p raw tn ts).size = p * (exportField p raw tn ts).count) ∧
    (raw.getLast? = some ']' →
        (exportField p raw tn ts).count = natProd (scanBrackets (stripLeadingStars raw))) ∧
    (raw.getLast? ≠ some ']' → (exportField p raw tn ts).count = 1) ∧
    (∀ vs : List SVal, tn ≠ "char" → 2 ≤ (exportField p raw tn ts).count →
        vs.length = (exportField p raw tn ts).count → (exportField p raw tn ts).name ≠ [] →
        (compileField (exportField p raw tn ts)).1 = [FmtItem.ptr (exportField p raw tn ts).count] ∧
        setFields (compileField (exportField p raw tn ts)).2 vs
          = [(ptrTag ++ fixName (exportField p raw tn ts).name, Val.tup vs)]) := by
  rw [exportField_ptr_eq p raw tn ts hp]
  by_cases harr : raw.getLast? = some ']'
  · rw [if_pos harr]
    refine ⟨rfl, rfl, fun _ => rfl, fun hc => absurd harr hc, ?_⟩
    intro vs hchar hcount hvs hname
    exact compileField_ptr_group _ rfl hchar hcount hname vs hvs
  · rw [if_neg harr]
    refine ⟨rfl, by simp, fun hc => absurd hc harr, fun _ => rfl, ?_⟩
    intro vs hchar hcount hvs hname
    exact compileField_ptr_group _ rfl hchar hcount hname vs hvs

/-- Witness for pointer_field_compilation at the pointer array mat of
four Material pointers on a 64-bit header. -/
theorem pointer_field_compilation_witness :
    (exportField 8 (strChars "*mat[4]") "Material" 344).ptr = true ∧
    setFields (compileField (exportField 8 (strChars "*mat[4]") "Material" 344)).2
        [SVal.addr 11, SVal.addr 12, SVal.addr 13, SVal.addr 14]
      = [(ptrTag ++ fixName (exportField 8 (strChars "*mat[4]") "Material" 344).name,
          Val.tup [SVal.addr 11, SVal.addr 12, SVal.addr 13, SVal.addr 14])] :=
  ⟨(pointer_field_compilation 8 344 (strChars "*mat[4]") "Material" (by decide)).1,
   ((pointer_field_compilation 8 344 (strChars "*mat[4]") "Material" (by decide)).2.2.2.2
      [SVal.addr 11, SVal.addr 12, SVal.addr 13, SVal.addr 14]
      (by decide) (by decide) (by decide) (by decide)).2⟩

/-- Claim C7, amended: a non-pointer field with bracket suffixes gets
arity equal to the product of all bracketed dimensions; a char field of
arity above one compiles to a single fixed-length byte-string slot
decoded as one value; any other primitive field of arity above one
compiles to arity flat scalar slots regrouped post-decode into a single
tuple of the arity values, in both cases under the bracket-stripped
field name run through fix_name, which prefixes an f when the stripped
name begins with an underscore. -/
theorem array_field_decoding (p ts : Nat) (raw : List Char) (tn : String)
    (hp : raw.head? ≠ some '*') (harr : raw.getLast? = some ']') :
    ((exportField p raw tn ts).count = natProd (scanBrackets raw)) ∧
    (∀ bs : List Nat, tn = "char" → 1 < (exportField p raw tn ts).count →
        splitArraySuffix (fixName (exportField p raw tn ts).name) = none →
        (compileField (exportField p raw tn ts)).1
            = [FmtItem.str (exportField p raw tn ts).count] ∧
        (compileField (exportField p raw tn ts)).2
            = [fixName (exportField p raw tn ts).name] ∧
        setFields [fixName (exportField p raw tn ts).name] [SVal.bytes bs]
          = [(fixName (exportField p raw tn ts).name, Val.s (SVal.bytes bs))]) ∧
    (∀ (code : Char) (vs : List SVal), baseTypesL.lookup tn = some code → tn ≠ "char" →
        2 ≤ (exportField p raw tn ts).count → (exportField p raw tn ts).name ≠ [] →
        vs.length = (exportField p raw tn ts).count →
        (compileField (exportField p raw tn ts)).1
            = [FmtItem.prim (exportField p raw tn ts).count code] ∧
        setFields (compileField (exportField p raw tn ts)).2 vs
          = [(fixName (exportField p raw tn ts).name, Val.tup vs)]) := by
  rw [exportField_arr_eq p raw tn ts hp harr]
  refine ⟨rfl, ?_, ?_⟩
  · intro bs hchar hcount hsplit
    exact compileField_char_single _ rfl hchar hcount hsplit bs
  · intro code vs hlook hchar hcount hname hvs
    exact compileField_prim_group _ rfl code hlook hchar hcount hname vs hvs

/-- Witness for array_field_decoding at an int array of three flags and
a char array of 24 name bytes. -/
theorem array_field_decoding_witness :
    setFields (compileField (exportField 8 (strChars "flag[3]") "int" 4)).2
        [SVal.int 5, SVal.int 6, SVal.int 7]
      = [(fixName (exportField 8 (strChars "flag[3]") "int" 4).name,
          Val.tup [SVal.int 5, SVal.int 6, SVal.int 7])] ∧
    (compileField (exportField 8 (strChars "name[24]") "char" 1)).1
      = [FmtItem.str (exportField 8 (strChars "name[24]") "char" 1).count] ∧
    setFields [fixName (exportField 8 (strChars "name[24]") "char" 1).name]
        [SVal.bytes [87, 79]]
      = [(fixName (exportField 8 (strChars "name[24]") "char" 1).name,
          Val.s (SVal.bytes [87, 79]))] :=
  ⟨((array_field_decoding 8 4 (strChars "flag[3]") "int" (by decide) (by decide)).2.2
      'i' [SVal.int 5, SVal.int 6, SVal.int 7] (by decide) (by decide) (by decide)
      (by decide) (by decide)).2,
   ((array_field_decoding 8 1 (strChars "name[24]") "char" (by decide) (by decide)).2.1
      [87, 79] rfl (by decide) (by decide)).1,
   ((array_field_decoding 8 1 (strChars "name[24]") "char" (by decide) (by decide)).2.1
      [87, 79] rfl (by decide) (by decide)).2.2⟩
